import Mathlib

/-!
Verification of the binary patch engine of RTXLauncher
(`rtxlauncher-core/src/patching.rs`).

Byte buffers are modelled as `List Nat` (each element a byte value), hex
masks and replacement strings as `String` over the ASCII alphabet, exactly
as the Rust code manipulates them.  Imperative loops whose index does not
decrease structurally are given an explicit fuel argument that is always
large enough (each loop strictly advances its position in a list of known
length, so `length + small constant` iterations suffice); this keeps every
definition executable by kernel reduction.  The Rust code can panic by
slicing `data[start..]` with `start > data.len()`; that outcome is modelled
explicitly by the `FindRes.crash` result and propagated by callers as
`Option.none`.
-/

/-- The apostrophe character, written via its code point. -/
def quoteChar : Char := Char.ofNat 39

/-- The opening curly brace character. -/
def braceOpen : Char := Char.ofNat 123

/-- The closing curly brace character. -/
def braceClose : Char := Char.ofNat 125

/-- `trimChars` models Rust `str::trim` on an ASCII character list:
leading and trailing whitespace removed. -/
def trimChars (l : List Char) : List Char :=
  ((l.dropWhile Char.isWhitespace).reverse.dropWhile Char.isWhitespace).reverse

/-- `trimStr` is `str::trim` at the `String` level. -/
def trimStr (s : String) : String := String.mk (trimChars s.data)

/-- First index at or after 0 where `pat` occurs as a contiguous sublist of
`l`; `none` if it never occurs.  This is the specification of substring
search (Rust `str::find` / `twoway::find_bytes`): the empty pattern occurs
at index 0. -/
def findSubIdx (l pat : List Char) : Option Nat :=
  (List.range (l.length + 1)).find? (fun i => decide ((l.drop i).take pat.length = pat))

/-- Substring search on byte lists: model of `twoway::find_bytes`.  Returns
the first index where `pat` occurs in `text`; the empty pattern matches at
index 0. -/
def findBytes (text pat : List Nat) : Option Nat :=
  (List.range (text.length + 1)).find? (fun i => decide ((text.drop i).take pat.length = pat))

/-- Value of one hex digit, as accepted by the `hex` crate
(`0-9`, `a-f`, `A-F`). -/
def hexDigitVal (c : Char) : Option Nat :=
  if '0' ≤ c ∧ c ≤ '9' then some (c.toNat - '0'.toNat)
  else if 'a' ≤ c ∧ c ≤ 'f' then some (c.toNat - 'a'.toNat + 10)
  else if 'A' ≤ c ∧ c ≤ 'F' then some (c.toNat - 'A'.toNat + 10)
  else none

/-- `hexDecodeL` models `hex::decode` on a character list: consumes two hex
digits per output byte, fails on odd length or an invalid character; the
empty string decodes to the empty byte list. -/
def hexDecodeL : List Char → Option (List Nat)
  | [] => some []
  | [_] => none
  | c1 :: c2 :: rest =>
    match hexDigitVal c1, hexDigitVal c2, hexDecodeL rest with
    | some hi, some lo, some bs => some ((hi * 16 + lo) :: bs)
    | _, _, _ => none

/-- `hex::decode` at the `String` level. -/
def hexDecode (s : String) : Option (List Nat) := hexDecodeL s.data

/-- The wildcard token `??` of the mask language, as a character list. -/
def wildSep : List Char := ['?', '?']

/-- Leftmost, non-overlapping split of `l` on occurrences of `sep`
(Rust `str::split` with a non-empty literal pattern).  `fuel` bounds the
number of occurrences processed; `l.length + 1` always suffices because
every occurrence consumes at least one character. -/
def splitOnL : Nat → List Char → List Char → List (List Char)
  | 0, l, _ => [l]
  | fuel + 1, l, sep =>
    match findSubIdx l sep with
    | none => [l]
    | some i => l.take i :: splitOnL fuel (l.drop (i + sep.length)) sep

/-- The segments of a hex mask, split on the `??` wildcard token
(`hex_mask.split("??")` in `findmask`). -/
def maskParts (m : String) : List (List Char) :=
  splitOnL (m.data.length + 1) m.data wildSep

/-- Result of a `findmask` search.  `crash` models the Rust panic raised by
evaluating `&data[start..]` with `start > data.len()`. -/
inductive FindRes
  | found (p : Nat)
  | notFound
  | crash
deriving DecidableEq, Repr

/-- The inner verification loop of `findmask` (patching.rs lines 199-206):
walk the candidate position `checkpos` across the mask segments, checking
each non-empty literal segment against the buffer and advancing by the
segment's byte length plus one wildcard byte (`part.len()/2 + 1`).
`none` models the `?` early return taken when a segment fails to
hex-decode; `some false` is a mismatch (retry), `some true` success. -/
def verifyParts (data : List Nat) : List (List Char) → Nat → Option Bool
  | [], _ => some true
  | part :: rest, checkpos =>
    if part.length = 0 then verifyParts data rest (checkpos + part.length / 2 + 1)
    else
      match hexDecodeL part with
      | none => none
      | some b =>
        if checkpos + b.length > data.length then some false
        else if (data.drop checkpos).take b.length ≠ b then some false
        else verifyParts data rest (checkpos + part.length / 2 + 1)

/-- The retry loop of `findmask` for wildcard masks (patching.rs lines
195-209): find the anchor segment at or after `start`, verify all segments
there, and on mismatch retry from one past the anchor position.  Each
iteration first hex-decodes the anchor (failure returns not-found), then
evaluates `&data[start..]`, which crashes when `start > data.len()`.
`fuel = data.length + 2` always suffices: `start` strictly increases per
retry and the crash branch fires once it exceeds `data.length`. -/
def findmaskLoop (data : List Nat) (parts : List (List Char)) : Nat → Nat → FindRes
  | 0, _ => FindRes.notFound
  | fuel + 1, start =>
    match hexDecodeL (parts.headD []) with
    | none => FindRes.notFound
    | some anchor =>
      if start > data.length then FindRes.crash
      else
        match findBytes (data.drop start) anchor with
        | none => FindRes.notFound
        | some p =>
          match verifyParts data parts (start + p) with
          | none => FindRes.notFound
          | some true => FindRes.found (start + p)
          | some false => findmaskLoop data parts fuel (start + p + 1)

/-- `findmask(data, hex_mask, start)` (patching.rs lines 188-210).  A mask
without the `??` token is hex-decoded and searched as a literal substring
of `data[start..]`; a wildcard mask runs the segment retry loop. -/
def findmask (data : List Nat) (hex_mask : String) (start : Nat) : FindRes :=
  match findSubIdx hex_mask.data wildSep with
  | none =>
    match hexDecode hex_mask with
    | none => FindRes.notFound
    | some needle =>
      if start > data.length then FindRes.crash
      else
        match findBytes (data.drop start) needle with
        | some p => FindRes.found (start + p)
        | none => FindRes.notFound
  | some _ => findmaskLoop data (maskParts hex_mask) (data.length + 2) start

/-- `PatternSpec` (patching.rs lines 11-16). -/
structure PatternSpec where
  hex_mask : String
  offset : Int
  override_hex : Option String
deriving DecidableEq, Repr

/-- `PatchSet` (patching.rs lines 18-22). -/
structure PatchSet where
  patterns : List PatternSpec
  default_replacement : Option String
deriving DecidableEq, Repr

/-- The write-offset computation of `apply_patchsets_to_file` (line 225):
`(base as isize + offset) as usize` for a non-negative offset, and
`base.saturating_sub(offset.unsigned_abs())` for a negative one. -/
def write_offset (base : Nat) (offset : Int) : Nat :=
  if offset ≥ 0 then base + offset.toNat else base - offset.natAbs

/-- `out[off..off+repl.len()].copy_from_slice(&repl)` on a list buffer. -/
def writeAt (out : List Nat) (off : Nat) (repl : List Nat) : List Nat :=
  out.take off ++ repl ++ out.drop (off + repl.length)

/-- Uppercase hexadecimal rendering of a number, as Rust `format!("{:X}")`. -/
def hexUpper (n : Nat) : String := String.mk ((Nat.toDigits 16 n).map Char.toUpper)

/-- The informational diagnostic of line 229:
`format!("Applied patch at 0x{:X}, len {}", off, repl.len())`. -/
def appliedMsg (off len : Nat) : String :=
  "Applied patch at 0x" ++ hexUpper off ++ ", len " ++ toString len

/-- The diagnostic of line 231:
`format!("Write out of range for pattern {}", pat.hex_mask)`. -/
def outOfRangeMsg (mask : String) : String :=
  "Write out of range for pattern " ++ mask

/-- The candidate-location string of line 240: `format!("{}@0x{:X}", mask, p)`. -/
def locMsg (mask : String) (p : Nat) : String := mask ++ "@0x" ++ hexUpper p

/-- The chosen-alternative loop of `apply_patchsets_to_file` (lines
215-220): scan the alternatives in order; for each, search from offset 0
and, on a match at `p`, again from `p+1`; stop at the first alternative
whose second search finds nothing.  `none` models a panic escaping from
`findmask`; `some none` means no alternative won. -/
def choose_alt (orig : List Nat) : List PatternSpec → Option (Option (Nat × PatternSpec))
  | [] => some none
  | pat :: rest =>
    match findmask orig pat.hex_mask 0 with
    | FindRes.crash => none
    | FindRes.notFound => choose_alt orig rest
    | FindRes.found p =>
      match findmask orig pat.hex_mask (p + 1) with
      | FindRes.crash => none
      | FindRes.found _ => choose_alt orig rest
      | FindRes.notFound => some (some (p, pat))

/-- The replacement application for a winning alternative (lines 221-233):
the override replacement takes precedence over the set's default; a
missing or undecodable replacement is a silent no-op; an in-range write
overwrites the byte range and logs the informational diagnostic; an
out-of-range write only logs a diagnostic. -/
def apply_chosen (out : List Nat) (ws : List String) (set : PatchSet)
    (base : Nat) (pat : PatternSpec) : List Nat × List String :=
  match (match pat.override_hex with
         | some h => some h
         | none => set.default_replacement) with
  | none => (out, ws)
  | some hexs =>
    match hexDecode hexs with
    | none => (out, ws)
    | some repl =>
      let off := write_offset base pat.offset
      if off + repl.length ≤ out.length then
        (writeAt out off repl, ws ++ [appliedMsg off repl.length])
      else
        (out, ws ++ [outOfRangeMsg pat.hex_mask])

/-- The diagnostic enumeration loop of lines 238-241: repeatedly search the
mask from one past the previous match, collecting `mask@0xPOS` strings.
`none` models a panic escaping from `findmask`.  Successive matches
strictly increase and stay at most `orig.length`, so
`fuel = orig.length + 3` always suffices. -/
def enumLocs (orig : List Nat) (mask : String) : Nat → Nat → Option (List String)
  | 0, _ => none
  | fuel + 1, start =>
    match findmask orig mask start with
    | FindRes.crash => none
    | FindRes.notFound => some []
    | FindRes.found p =>
      match enumLocs orig mask fuel (p + 1) with
      | none => none
      | some rest => some (locMsg mask p :: rest)

/-- Candidate locations across all alternatives of a set (lines 237-241). -/
def enumAll (orig : List Nat) : List PatternSpec → Option (List String)
  | [] => some []
  | pat :: rest =>
    match enumLocs orig pat.hex_mask (orig.length + 3) 0 with
    | none => none
    | some l =>
      match enumAll orig rest with
      | none => none
      | some r => some (l ++ r)

/-- Processing of one `PatchSet` inside `apply_patchsets_to_file` (lines
213-248): apply the winning alternative if any, otherwise emit either the
combined ambiguity diagnostic or the generic not-found diagnostic. -/
def apply_one_set (orig out : List Nat) (set : PatchSet) (ws : List String) :
    Option (List Nat × List String) :=
  match choose_alt orig set.patterns with
  | none => none
  | some (some (base, pat)) => some (apply_chosen out ws set base pat)
  | some none =>
    match enumAll orig set.patterns with
    | none => none
    | some locs =>
      if locs.isEmpty then some (out, ws ++ ["Failed to locate pattern"])
      else
        some (out, ws ++ ["Ambiguous or conflicting pattern(s): " ++
          String.intercalate ", " locs])

/-- `apply_patchsets_to_file(orig, out, sets, warnings)` (lines 212-249),
threading the output buffer and warning list through each set in order.
The result is `none` exactly when a `findmask` call panics. -/
def apply_patchsets_to_file (orig : List Nat) :
    List Nat → List PatchSet → List String → Option (List Nat × List String)
  | out, [], ws => some (out, ws)
  | out, set :: rest, ws =>
    match apply_one_set orig out set ws with
    | none => none
    | some (out2, ws2) => apply_patchsets_to_file orig out2 rest ws2

/-- `patch_file` (patching.rs lines 338-345) with file I/O abstracted: the
file's bytes are given as `data` (the `fs::read` result), the patched
output is returned to the caller (which stages it), and the counter is
incremented. -/
def patch_file (data : List Nat) (sets : List PatchSet) (ws : List String)
    (files_patched : Nat) : Option (List Nat × List String × Nat) :=
  match apply_patchsets_to_file data data sets ws with
  | none => none
  | some (out, ws2) => some (out, ws2, files_patched + 1)

/-- `split_top_level(s, delim)` (patching.rs lines 172-179): split on the
delimiter at bracket depth zero, trimming each piece; the final piece is
kept only when non-empty after trimming. -/
def splitTopAux (delim : Char) : List Char → Int → List Char → List String
  | [], _, cur =>
    if trimChars cur = [] then [] else [String.mk (trimChars cur)]
  | c :: rest, depth, cur =>
    if c = '[' ∨ c = '(' ∨ c = braceOpen then splitTopAux delim rest (depth + 1) (cur ++ [c])
    else if c = ']' ∨ c = ')' ∨ c = braceClose then splitTopAux delim rest (depth - 1) (cur ++ [c])
    else if c = delim ∧ depth = 0 then String.mk (trimChars cur) :: splitTopAux delim rest depth []
    else splitTopAux delim rest depth (cur ++ [c])

/-- `split_top_level` at the `String` level. -/
def split_top_level (s : String) (delim : Char) : List String :=
  splitTopAux delim s.data 0 []

/-- `unquote` (line 181): `s.trim_matches('\'')`, stripping every leading
and trailing apostrophe.  The Rust function is wrapped in `Result` but can
never fail. -/
def unquote (s : String) : String :=
  String.mk (((s.data.dropWhile (· = quoteChar)).reverse.dropWhile (· = quoteChar)).reverse)

/-- Value of a non-empty all-digit character list, used by `parseIsize`. -/
def digitsVal (l : List Char) : Option Nat :=
  if l.isEmpty then none
  else if l.all Char.isDigit then
    some (l.foldl (fun acc c => acc * 10 + (c.toNat - '0'.toNat)) 0)
  else none

/-- Model of Rust `str::parse::<isize>`: an optional sign followed by one
or more ASCII digits, nothing else.  (Machine-width overflow, which also
fails in Rust, is not modelled; no patch script carries such offsets.) -/
def parseIsize (l : List Char) : Option Int :=
  match l with
  | '-' :: rest => (digitsVal rest).map (fun n => -(n : Int))
  | '+' :: rest => (digitsVal rest).map (fun n => (n : Int))
  | _ => (digitsVal l).map (fun n => (n : Int))

/-- The interior of a bracket- or paren-delimited literal:
Rust `&src[1..src.len()-1]`. -/
def innerOf (src : String) : String := String.mk ((src.data.drop 1).dropLast)

/-- `parse_tuple_pattern` (patching.rs lines 154-163): split the tuple body
at top level on commas; fewer than two fields is an error; the offset is
parsed with `.unwrap_or(0)`, silently defaulting to 0 on any parse
failure; a third field is the override replacement. -/
def parse_tuple_pattern (src : String) : Except String PatternSpec :=
  let parts := split_top_level (innerOf src) ','
  if parts.length < 2 then Except.error "tuple too short"
  else
    let hex := unquote (trimStr (parts.getD 0 ""))
    let offset := (parseIsize (trimStr (parts.getD 1 "")).data).getD 0
    let override_hex :=
      if 3 ≤ parts.length then some (unquote (trimStr (parts.getD 2 ""))) else none
    Except.ok { hex_mask := hex, offset := offset, override_hex := override_hex }

/-- Depth-counted capture of one delimited group, as in the bracket- and
paren-matching loops of the parser: returns the consumed group (up to and
including the balancing close delimiter, or the whole remainder when it
never balances) together with the rest of the input. -/
def delimTake (openC closeC : Char) : List Char → Int → List Char × List Char
  | [], _ => ([], [])
  | c :: r, depth =>
    let d1 := if c = openC then depth + 1 else depth
    if c = closeC then
      if d1 - 1 = 0 then ([c], r)
      else
        let (a, b) := delimTake openC closeC r (d1 - 1)
        (c :: a, b)
    else
      let (a, b) := delimTake openC closeC r d1
      (c :: a, b)

/-- Advance past the separator after a tuple in `parse_patterns_list`
(line 149): skip to the next `(`, but stop just past a comma. -/
def skipTupSep : List Char → List Char
  | [] => []
  | c :: r => if c = '(' then c :: r else if c = ',' then r else skipTupSep r

/-- The loop of `parse_patterns_list` (lines 141-150): each tuple must
start with `(`; the group is captured by paren matching and parsed. -/
def parsePatsLoop : Nat → List Char → Except String (List PatternSpec)
  | 0, _ => Except.error "fuel exhausted"
  | fuel + 1, rest =>
    let r1 := rest.dropWhile Char.isWhitespace
    match r1 with
    | [] => Except.ok []
    | c :: _ =>
      if c ≠ '(' then Except.error "expected tuple"
      else
        let (tup, r2) := delimTake '(' ')' r1 0
        match parse_tuple_pattern (String.mk tup) with
        | Except.error e => Except.error e
        | Except.ok pat =>
          match parsePatsLoop fuel (skipTupSep r2) with
          | Except.error e => Except.error e
          | Except.ok out => Except.ok (pat :: out)

/-- `parse_patterns_list` (lines 138-152). -/
def parse_patterns_list (src : String) : Except String (List PatternSpec) :=
  parsePatsLoop (src.data.length + 1) (innerOf src).data

/-- `parse_entry_list` (lines 116-136): an entry is `[ first, 'repl'? ]`
where `first` is a tuple or a list of tuples and the optional quoted
second field is the default replacement. -/
def parse_entry_list (entry_src : String) : Except String PatchSet :=
  let parts := split_top_level (innerOf entry_src) ','
  match parts with
  | [] => Except.error "empty entry"
  | p0 :: restParts =>
    let first := trimStr p0
    let default_repl : Option String :=
      match restParts with
      | p1 :: _ =>
        let t1 := trimStr p1
        if t1.data.headD ' ' = quoteChar then some (unquote t1) else none
      | [] => none
    if first.data.headD ' ' = '[' then
      match parse_patterns_list first with
      | Except.error e => Except.error e
      | Except.ok patterns =>
        Except.ok { patterns := patterns, default_replacement := default_repl }
    else if first.data.headD ' ' = '(' then
      match parse_tuple_pattern first with
      | Except.error e => Except.error e
      | Except.ok pat =>
        Except.ok { patterns := [pat], default_replacement := default_repl }
    else Except.error "entry must start with \x5b or ("

/-- The trailing comma advance shared by both branches of the
`parse_patch_sets` loop (line 111). -/
def commaAdvance : List Char → List Char
  | ',' :: r => r
  | r => r

/-- The loop of `parse_patch_sets` (lines 98-112): each `[...]` entry is
captured by bracket matching and parsed; an unexpected token is skipped
conservatively to the next comma. -/
def parseSetsLoop : Nat → List Char → Except String (List PatchSet)
  | 0, _ => Except.error "fuel exhausted"
  | fuel + 1, rest =>
    let r1 := rest.dropWhile Char.isWhitespace
    match r1 with
    | [] => Except.ok []
    | c :: _ =>
      if c = '[' then
        let (entry, r2) := delimTake '[' ']' r1 0
        match parse_entry_list (String.mk entry) with
        | Except.error e => Except.error e
        | Except.ok ps =>
          match parseSetsLoop fuel (commaAdvance r2) with
          | Except.error e => Except.error e
          | Except.ok out => Except.ok (ps :: out)
      else
        parseSetsLoop fuel (commaAdvance (r1.dropWhile (· ≠ ',')))

/-- `parse_patch_sets` (lines 94-114). -/
def parse_patch_sets (list_src : String) : Except String (List PatchSet) :=
  parseSetsLoop (list_src.data.length + 1) (innerOf list_src).data

/-- The patch table: map from relative file path to the file's patch sets.
`HashMap` is modelled as an association list with replace-or-append
insertion. -/
abbrev PatchMapL : Type := List (String × List PatchSet)

deriving instance DecidableEq for Except

/-- `HashMap::insert`: replace the binding when the key is present,
otherwise append it. -/
def insertAssoc (m : PatchMapL) (k : String) (v : List PatchSet) : PatchMapL :=
  if (List.any m (fun p => p.1 == k)) then
    List.map (fun p => if p.1 == k then (k, v) else p) m
  else m ++ [(k, v)]

/-- The `skip spaces and ':'` loop of `parse_dict` (line 79): stop just
past the first colon, or at the first character that is neither
whitespace nor a colon. -/
def skipColonL : List Char → List Char
  | [] => []
  | c :: r => if c = ':' then r else if c.isWhitespace then skipColonL r else c :: r

/-- The `move past comma` loop of `parse_dict` (line 89): skip up to the
next quote, but stop just past a comma. -/
def skipCommaL : List Char → List Char
  | [] => []
  | c :: r => if c = quoteChar then c :: r else if c = ',' then r else skipCommaL r

/-- The entry loop of `parse_dict` (lines 66-90): repeatedly read a quoted
key, a colon, and a bracketed value list, inserting each parsed binding.
Every iteration consumes at least one character of the remaining input, so
`fuel = length + 1` always suffices. -/
def parseDictLoop : Nat → List Char → PatchMapL → Except String PatchMapL
  | 0, _, _ => Except.error "fuel exhausted"
  | fuel + 1, rest, map =>
    let r1 := rest.dropWhile Char.isWhitespace
    match r1 with
    | [] => Except.ok map
    | c :: r2 =>
      if c = braceClose then Except.ok map
      else if c ≠ quoteChar then Except.error "expected quoted key"
      else
        let key := r2.takeWhile (· ≠ quoteChar)
        let r3 := (r2.dropWhile (· ≠ quoteChar)).drop 1
        let r4 := (skipColonL r3).dropWhile Char.isWhitespace
        match r4 with
        | [] => Except.error "expected \x5b"
        | c2 :: _ =>
          if c2 ≠ '[' then Except.error "expected \x5b"
          else
            let (val, r5) := delimTake '[' ']' r4 0
            match parse_patch_sets (String.mk val) with
            | Except.error e => Except.error e
            | Except.ok sets =>
              parseDictLoop fuel (skipCommaL r5) (insertAssoc map (String.mk key) sets)

/-- `parse_dict` (lines 57-92): strip the outer braces when present, then
run the entry loop. -/
def parse_dict (body : String) : Except String PatchMapL :=
  let trimmed := trimChars body.data
  let slice :=
    if trimmed.headD ' ' = braceOpen ∧ trimmed.getLastD ' ' = braceClose then
      (trimmed.drop 1).dropLast
    else trimmed
  parseDictLoop (slice.length + 1) slice []

/-- Depth-counted scan for the closing brace of a dict literal
(`find_dict`, lines 45-53): returns the consumed prefix up to and
including the balancing `}` or `none` when depth never returns to zero. -/
def braceSlice : List Char → Int → Option (List Char)
  | [], _ => none
  | c :: r, depth =>
    let d1 := if c = braceOpen then depth + 1 else depth
    if c = braceClose then
      if d1 - 1 = 0 then some [c]
      else (braceSlice r (d1 - 1)).map (c :: ·)
    else (braceSlice r d1).map (c :: ·)

/-- `find_dict(name)` (lines 37-55): locate `name = {` (or `name={`),
point at the opening brace, and capture the literal by brace matching;
errors are `<name> not found` and `<name> unmatched braces`. -/
def find_dict (text : String) (name : String) : Except String String :=
  let tag1 := name ++ " = \x7b"
  let startPos :=
    match findSubIdx text.data tag1.data with
    | some pos => some (pos + tag1.length - 1)
    | none =>
      let tag2 := name ++ "=\x7b"
      match findSubIdx text.data tag2.data with
      | some pos => some (pos + tag2.length - 1)
      | none => none
  match startPos with
  | none => Except.error (name ++ " not found")
  | some sp =>
    match braceSlice (text.data.drop sp) 0 with
    | none => Except.error (name ++ " unmatched braces")
    | some body => Except.ok (String.mk body)

/-- Split on newline characters; the pieces of `"a\nb"` are
`["a", "b"]` and a trailing newline yields a trailing empty piece. -/
def splitNl : List Char → List (List Char)
  | [] => [[]]
  | c :: r =>
    if c = '\n' then [] :: splitNl r
    else
      match splitNl r with
      | [] => [[c]]
      | h :: t => (c :: h) :: t

/-- Model of Rust `str::lines`: newline-separated pieces, without a final
empty piece from a trailing newline, each stripped of one trailing `\r`. -/
def linesRust (l : List Char) : List (List Char) :=
  let ps := splitNl l
  let ps := if ps.getLastD [' '] = [] then ps.dropLast else ps
  ps.map (fun ln => if ln.getLastD ' ' = '\r' then ln.dropLast else ln)

/-- `strip_comments` (patching.rs lines 26-31): truncate every line at the
first `#` and re-join with newlines. -/
def strip_comments (src : String) : String :=
  String.mk (List.intercalate ['\n']
    ((linesRust src.data).map (fun l => l.takeWhile (· ≠ '#'))))

/-- The dict-literal selection of lines 183-184:
`find_dict(n1).or_else(|_| find_dict(n2)).unwrap_or("{}")`.  Any
`find_dict` failure — including unmatched braces — falls back to the empty
literal. -/
def dict_source (text n1 n2 : String) : String :=
  match find_dict text n1 with
  | Except.ok s => s
  | Except.error _ =>
    match find_dict text n2 with
    | Except.ok s => s
    | Except.error _ => "\x7b\x7d"

/-- `parse_patches_from_python` (lines 33-186): strip comments, extract the
two dict literals with the empty fallback, and parse each into a table. -/
def parse_patches_from_python (src : String) :
    Except String (PatchMapL × PatchMapL) :=
  let text := strip_comments src
  match parse_dict (dict_source text "patches32" "patches_32") with
  | Except.error e => Except.error e
  | Except.ok m32 =>
    match parse_dict (dict_source text "patches64" "patches_64") with
    | Except.error e => Except.error e
    | Except.ok m64 => Except.ok (m32, m64)

/-- `str::starts_with` on ASCII strings. -/
def strStarts (s pat : String) : Bool := List.isPrefixOf pat.data s.data

/-- `str::ends_with` on ASCII strings. -/
def strEnds (s pat : String) : Bool := List.isSuffixOf pat.data s.data

/-- Substring containment on ASCII strings. -/
def strContains (s pat : String) : Bool := (findSubIdx s.data pat.data).isSome

/-- `str::trim_start_matches` with a non-empty literal pattern: strip every
leading occurrence.  Fuel `s.length + 1` suffices since each round removes
at least one character. -/
def trimStartAux : Nat → List Char → List Char → List Char
  | 0, _, l => l
  | fuel + 1, pat, l =>
    if pat ≠ [] ∧ List.isPrefixOf pat l then trimStartAux fuel pat (l.drop pat.length)
    else l

/-- `str::trim_start_matches` at the `String` level. -/
def trimStartMatches (s pat : String) : String :=
  String.mk (trimStartAux (s.data.length + 1) pat.data s.data)

/-- The 64-bit key rewrite of `apply_patches_from_repo` (lines 286-290):
on a 64-bit install, a `.dll` key under `bin/` not already under
`/win64/` is rewritten to its `bin/win64/` equivalent. -/
def effectiveRel (is64 : Bool) (rel : String) : String :=
  if is64 && strStarts rel "bin/" && !strContains rel "/win64/" && strEnds rel ".dll" then
    "bin/win64/" ++ trimStartMatches rel "bin/"
  else rel

/-- Abstraction of the file system and install layout consumed by the key
loop of `apply_patches_from_repo`: whether and what the vanilla install
provides for a relative path, and the one-level subdirectory entries of
the RTX root with their contents, in directory-iteration order. -/
structure SessionEnv where
  is64 : Bool
  vanillaHas : String → Bool
  vanillaBytes : String → List Nat
  rootEntries : List String
  entryHas : String → String → Bool
  entryBytes : String → String → List Nat

/-- The mutable state threaded through the key loop of
`apply_patches_from_repo`: files written to the staging area (the
`write_patched_file` calls performed inside `patch_file`), the
`patched_files` list, the `files_patched` counter and the warnings. -/
structure SessState where
  staged : List (String × List Nat)
  patched_files : List String
  files_patched : Nat
  warnings : List String
deriving DecidableEq, Repr

/-- One iteration of the key loop of `apply_patches_from_repo` (lines
282-311), with file I/O read through `env`: resolve the source under the
vanilla install; if absent and the key is the well-known client library,
fall back to the first one-level subdirectory that provides it — in that
branch the Rust code runs `patch_file` and then `continue`s *without*
pushing to `patched_files`; if nothing is found, record a missing-file
diagnostic.  The normal branch runs `patch_file` and records the key in
`patched_files`. -/
def processKey (env : SessionEnv) (st : SessState) (key : String × List PatchSet) :
    Option SessState :=
  let er := effectiveRel env.is64 key.1
  if env.vanillaHas er then
    match patch_file (env.vanillaBytes er) key.2 st.warnings st.files_patched with
    | none => none
    | some (out, ws, fp) =>
      some { staged := st.staged ++ [(er, out)],
             patched_files := st.patched_files ++ [er],
             files_patched := fp, warnings := ws }
  else if strEnds er "bin/client.dll" then
    match env.rootEntries.find? (fun e => env.entryHas e er) with
    | some e =>
      match patch_file (env.entryBytes e er) key.2 st.warnings st.files_patched with
      | none => none
      | some (out, ws, fp) =>
        some { staged := st.staged ++ [(er, out)],
               patched_files := st.patched_files,
               files_patched := fp, warnings := ws }
    | none =>
      some { st with warnings := st.warnings ++ ["Missing file \x5b" ++ er ++ "\x5d"] }
  else
    some { st with warnings := st.warnings ++ ["Missing file \x5b" ++ er ++ "\x5d"] }

/-- The key loop of `apply_patches_from_repo` over the selected table,
starting from the empty session state. -/
def runSession (env : SessionEnv) (keys : List (String × List PatchSet)) :
    Option SessState :=
  List.foldlM (processKey env) { staged := [], patched_files := [], files_patched := 0, warnings := [] } keys

/-- The deployment loop of lines 316-321 copies exactly the entries of
`patched_files` over their live paths. -/
def deployedRels (st : SessState) : List String := st.patched_files

/-- The report of lines 325-332: the patched-file count, one `Patched:`
line per entry of `patched_files`, then every warning. -/
def reportLines (st : SessState) : List String :=
  ("Patched " ++ toString st.files_patched ++ " file(s)") ::
    (st.patched_files.map (fun f => "Patched: " ++ f) ++ st.warnings)


/-! ## Specification-side predicates and concrete fixtures -/

/-- An alternative definitively fails the uniqueness test of the resolver:
its first search finds nothing, or it finds a first match and the search
one past it finds a second one. -/
def altFails (orig : List Nat) (pat : PatternSpec) : Prop :=
  findmask orig pat.hex_mask 0 = FindRes.notFound ∨
  ∃ p q, findmask orig pat.hex_mask 0 = FindRes.found p ∧
    findmask orig pat.hex_mask (p + 1) = FindRes.found q

/-- A decoded literal segment matches the buffer at `pos`: it lies within
bounds and its bytes coincide with the buffer slice there. -/
def segMatch (data : List Nat) (pos : Nat) (b : List Nat) : Prop :=
  pos + b.length ≤ data.length ∧ (data.drop pos).take b.length = b

/-- The position of the `k`-th mask segment implied by walking forward
from a candidate start `cp`: each earlier segment advances by its literal
byte length (`length / 2` of its hex text) plus exactly one wildcard
byte. -/
def walkPos (cp : Nat) (parts : List (List Char)) (k : Nat) : Nat :=
  cp + (((parts.take k).map (fun s => s.length / 2 + 1)).sum)

/-- C1 fixture: alternative 1 (`AA`) occurs twice, alternative 2 (`BB`)
exactly once. -/
def c1pat1 : PatternSpec := { hex_mask := "AA", offset := 0, override_hex := some "11" }

/-- C1 fixture, second alternative. -/
def c1pat2 : PatternSpec := { hex_mask := "BB", offset := 0, override_hex := some "22" }

/-- C1 fixture set. -/
def c1set : PatchSet := { patterns := [c1pat1, c1pat2], default_replacement := none }

/-- C1 fixture buffer. -/
def c1buf : List Nat := [0xAA, 0xAA, 0xBB]

/-- C2 fixture: 16-byte buffer containing `DEADBEEF` exactly once, at
offset 4. -/
def c2buf : List Nat :=
  [0x00, 0x01, 0x02, 0x03, 0xDE, 0xAD, 0xBE, 0xEF,
   0x08, 0x09, 0x0A, 0x0B, 0x0C, 0x0D, 0x0E, 0x0F]

/-- C2 fixture: the PatchSet `[[('DEADBEEF', 0)], 'CAFEBABE']`. -/
def c2set : PatchSet :=
  { patterns := [{ hex_mask := "DEADBEEF", offset := 0, override_hex := none }],
    default_replacement := some "CAFEBABE" }

/-- C2 expected output: bytes 4-7 replaced by `CAFEBABE`. -/
def c2out : List Nat :=
  [0x00, 0x01, 0x02, 0x03, 0xCA, 0xFE, 0xBA, 0xBE,
   0x08, 0x09, 0x0A, 0x0B, 0x0C, 0x0D, 0x0E, 0x0F]

/-- C3 fixture: 16-byte buffer whose only `AA` byte sits at position 10. -/
def c3buf : List Nat :=
  [0x00, 0x00, 0x00, 0x00, 0x00, 0x00, 0x00, 0x00,
   0x00, 0x00, 0xAA, 0x00, 0x00, 0x00, 0x00, 0x00]

/-- C3 fixture: `('AA', 4)` with replacement `11`. -/
def c3setA : PatchSet :=
  { patterns := [{ hex_mask := "AA", offset := 4, override_hex := none }],
    default_replacement := some "11" }

/-- C3 fixture: `('AA', -4)` with replacement `11`. -/
def c3setB : PatchSet :=
  { patterns := [{ hex_mask := "AA", offset := -4, override_hex := none }],
    default_replacement := some "11" }

/-- C3 fixture: `('AA', -20)` with replacement `11`. -/
def c3setC : PatchSet :=
  { patterns := [{ hex_mask := "AA", offset := -20, override_hex := none }],
    default_replacement := some "11" }

/-- C4 fixture buffer `AA 00 CC AA FF CC`. -/
def c4buf : List Nat := [0xAA, 0x00, 0xCC, 0xAA, 0xFF, 0xCC]

/-- C5 counterexample script: contains the token `patches32 = {` but the
brace depth never returns to zero. -/
def c5src : String := "patches32 = \x7b \x27a\x27: \x5b"

/-- C9 failing environment: the vanilla install lacks `bin/client.dll`,
which is found only through the one-level subdirectory fallback under the
RTX root. -/
def c9env : SessionEnv :=
  { is64 := false
    vanillaHas := fun _ => false
    vanillaBytes := fun _ => []
    rootEntries := ["garrysmod"]
    entryHas := fun e r => e == "garrysmod" && r == "bin/client.dll"
    entryBytes := fun _ _ => [0xAA] }

/-- C9 failing key table: one `bin/client.dll` key with a uniquely
matching patch. -/
def c9keys : List (String × List PatchSet) :=
  [("bin/client.dll",
    [{ patterns := [{ hex_mask := "AA", offset := 0, override_hex := none }],
       default_replacement := some "BB" }])]

/-- C9: the session state the code actually produces on `c9env`. -/
def c9state : SessState :=
  { staged := [("bin/client.dll", [0xBB])], patched_files := [],
    files_patched := 1, warnings := ["Applied patch at 0x0, len 1"] }

/-! ## Helper lemmas -/

/-- A successful hex decode consumes exactly two characters per byte. -/
theorem hexDecodeL_length : ∀ (cs : List Char) (b : List Nat),
    hexDecodeL cs = some b → cs.length = 2 * b.length
  | [], b, h => by
    simp only [hexDecodeL, Option.some.injEq] at h
    subst h; rfl
  | [_], b, h => by simp [hexDecodeL] at h
  | c1 :: c2 :: rest, b, h => by
    simp only [hexDecodeL] at h
    cases h1 : hexDigitVal c1 <;> rw [h1] at h
    · exact absurd h (by simp)
    cases h2 : hexDigitVal c2 <;> rw [h2] at h
    · exact absurd h (by simp)
    cases h3 : hexDecodeL rest <;> rw [h3] at h
    · exact absurd h (by simp)
    case some.some.some hi lo bs =>
      have h' : some ((hi * 16 + lo) :: bs) = some b := h
      have hb : (hi * 16 + lo) :: bs = b := by injection h'
      have ihl := hexDecodeL_length rest bs h3
      subst hb
      simp only [List.length_cons, ihl]
      omega

/-- A wildcard search that reports `found p` has verified every mask
segment at `p`. -/
theorem findmaskLoop_found_verify (data : List Nat) (parts : List (List Char)) :
    ∀ (fuel start p : Nat), findmaskLoop data parts fuel start = FindRes.found p →
      verifyParts data parts p = some true := by
  intro fuel
  induction fuel with
  | zero => intro start p h; simp [findmaskLoop] at h
  | succ f ih =>
    intro start p h
    simp only [findmaskLoop] at h
    split at h
    · exact absurd h (by simp)
    · split at h
      · exact absurd h (by simp)
      · split at h
        · exact absurd h (by simp)
        · split at h
          · exact absurd h (by simp)
          · rename_i hv
            injection h with hq
            rw [← hq]; exact hv
          · exact ih _ _ h

/-- Soundness of the segment walk: a successful verification at `cp`
places every decodable non-empty literal segment at the position obtained
by advancing, per preceding segment, by its byte length plus one wildcard
byte. -/
theorem verifyParts_sound : ∀ (parts : List (List Char)) (data : List Nat) (cp : Nat),
    verifyParts data parts cp = some true →
    ∀ (k : Nat), k < parts.length → ∀ (b : List Nat),
      hexDecodeL (parts.getD k []) = some b → b ≠ [] →
      segMatch data (walkPos cp parts k) b := by
  intro parts
  induction parts with
  | nil =>
    intro data cp h k hk
    exact absurd hk (by simp)
  | cons part rest ih =>
    intro data cp h k hk b hdec hne
    by_cases hlen : part.length = 0
    · simp only [verifyParts, if_pos hlen] at h
      cases k with
      | zero =>
        have hpart : part = [] := List.length_eq_zero.mp hlen
        simp only [List.getD_cons_zero, hpart, hexDecodeL, Option.some.injEq] at hdec
        exact absurd hdec.symm hne
      | succ k' =>
        have hk' : k' < rest.length := by
          simp only [List.length_cons] at hk; omega
        have hmain := ih data (cp + part.length / 2 + 1) h k' hk' b
          (by simpa using hdec) hne
        have harith : walkPos cp (part :: rest) (k' + 1) =
            walkPos (cp + part.length / 2 + 1) rest k' := by
          simp only [walkPos, List.take_succ_cons, List.map_cons, List.sum_cons]
          omega
        rw [harith]; exact hmain
    · simp only [verifyParts, if_neg hlen] at h
      split at h
      · exact absurd h (by simp)
      · rename_i b0 hd
        split at h
        · exact absurd h (by simp)
        · rename_i hbound
          split at h
          · exact absurd h (by simp)
          · rename_i hmatch
            cases k with
            | zero =>
              have hb : b = b0 := by
                simp only [List.getD_cons_zero, hd, Option.some.injEq] at hdec
                exact hdec.symm
              have hw : walkPos cp (part :: rest) 0 = cp := by simp [walkPos]
              rw [hw]; subst hb
              refine ⟨by omega, not_ne_iff.mp hmatch⟩
            | succ k' =>
              have hk' : k' < rest.length := by
                simp only [List.length_cons] at hk; omega
              have hmain := ih data (cp + part.length / 2 + 1) h k' hk' b
                (by simpa using hdec) hne
              have harith : walkPos cp (part :: rest) (k' + 1) =
                  walkPos (cp + part.length / 2 + 1) rest k' := by
                simp only [walkPos, List.take_succ_cons, List.map_cons, List.sum_cons]
                omega
              rw [harith]; exact hmain

/-- Taking the length of the left part of an append returns it. -/
theorem take_append_length (A B : List Nat) : (A ++ B).take A.length = A := by
  simp

/-- Dropping the length of the left part of an append returns the right part. -/
theorem drop_append_length (A B : List Nat) : (A ++ B).drop A.length = B := by
  simp

/-- An in-range `writeAt` preserves the buffer length. -/
theorem writeAt_length (out : List Nat) (off : Nat) (repl : List Nat)
    (h : off + repl.length ≤ out.length) :
    (writeAt out off repl).length = out.length := by
  simp only [writeAt, List.length_append, List.length_take, List.length_drop]
  omega

/-- An in-range `writeAt` leaves the prefix before the write untouched. -/
theorem writeAt_take (out : List Nat) (off : Nat) (repl : List Nat)
    (h : off + repl.length ≤ out.length) :
    (writeAt out off repl).take off = out.take off := by
  have h2 := take_append_length (out.take off) (repl ++ out.drop (off + repl.length))
  rw [List.length_take, Nat.min_eq_left (by omega : off ≤ out.length)] at h2
  rw [writeAt, List.append_assoc]
  exact h2

/-- An in-range `writeAt` places exactly the replacement bytes at the
write offset. -/
theorem writeAt_middle (out : List Nat) (off : Nat) (repl : List Nat)
    (h : off + repl.length ≤ out.length) :
    ((writeAt out off repl).drop off).take repl.length = repl := by
  have h3 := drop_append_length (out.take off) (repl ++ out.drop (off + repl.length))
  rw [List.length_take, Nat.min_eq_left (by omega : off ≤ out.length)] at h3
  rw [writeAt, List.append_assoc, h3]
  exact take_append_length repl _

/-- An in-range `writeAt` leaves the suffix after the write untouched. -/
theorem writeAt_drop (out : List Nat) (off : Nat) (repl : List Nat)
    (h : off + repl.length ≤ out.length) :
    (writeAt out off repl).drop (off + repl.length) = out.drop (off + repl.length) := by
  have h4 := drop_append_length (out.take off ++ repl) (out.drop (off + repl.length))
  rw [List.length_append, List.length_take, Nat.min_eq_left (by omega : off ≤ out.length)] at h4
  rw [writeAt]
  exact h4

/-! ## Claim theorems -/

/-- C2 counterexample: on the 16-byte `DEADBEEF` buffer with PatchSet
`[[('DEADBEEF', 0)], 'CAFEBABE']`, the warning list of the result is not
empty, contrary to the claim: the code logs an informational diagnostic
for every applied patch. -/
theorem C2_counterexample :
    (patch_file c2buf [c2set] [] 0).map (fun r => r.2.1) ≠ some ([] : List String) := by
  decide

/-- C2 as amended: applying the single `[[('DEADBEEF', 0)], 'CAFEBABE']`
PatchSet to the 16-byte buffer with `DEADBEEF` at offset 4 replaces bytes
4-7 by `CAFEBABE` and counts one patched file, but the warnings list holds
exactly the informational diagnostic `Applied patch at 0x4, len 4` instead
of being empty. -/
theorem C2_amended_end_to_end :
    patch_file c2buf [c2set] [] 0 =
      some (c2out, ["Applied patch at 0x4, len 4"], 1) := by
  decide

/-- C3: the absolute write offset is `base + d` for a non-negative declared
offset `d` and the zero-saturated `base - |d|` for a negative one (stated
over the integers: `max (base + d) 0`); concretely, `('AA', 4)` matched at
position 10 writes at 14, `('AA', -4)` at 6, and `('AA', -20)` saturates
to 0, as the full resolver runs on `c3buf` show. -/
theorem C3_offset_arithmetic :
    (∀ (base : Nat) (d : Int),
        (write_offset base d : Int) =
          if 0 ≤ d then (base : Int) + d else max ((base : Int) + d) 0) ∧
    write_offset 10 4 = 14 ∧ write_offset 10 (-4) = 6 ∧ write_offset 10 (-20) = 0 ∧
    apply_patchsets_to_file c3buf c3buf [c3setA] [] =
      some ([0x00, 0x00, 0x00, 0x00, 0x00, 0x00, 0x00, 0x00,
             0x00, 0x00, 0xAA, 0x00, 0x00, 0x00, 0x11, 0x00],
            ["Applied patch at 0xE, len 1"]) ∧
    apply_patchsets_to_file c3buf c3buf [c3setB] [] =
      some ([0x00, 0x00, 0x00, 0x00, 0x00, 0x00, 0x11, 0x00,
             0x00, 0x00, 0xAA, 0x00, 0x00, 0x00, 0x00, 0x00],
            ["Applied patch at 0x6, len 1"]) ∧
    apply_patchsets_to_file c3buf c3buf [c3setC] [] =
      some ([0x11, 0x00, 0x00, 0x00, 0x00, 0x00, 0x00, 0x00,
             0x00, 0x00, 0xAA, 0x00, 0x00, 0x00, 0x00, 0x00],
            ["Applied patch at 0x0, len 1"]) := by
  refine ⟨?_, by decide, by decide, by decide, by decide, by decide, by decide⟩
  intro base d
  simp only [write_offset]
  split
  · omega
  · have h1 : ((base - d.natAbs : Nat) : Int) = (((base : Int) + d).toNat : Int) := by
      omega
    rw [h1]
    exact Int.toNat_eq_max _

/-- C5 counterexample: a script containing `patches32 = {` whose brace
depth never returns to zero makes `find_dict` fail with the
unmatched-braces error, yet `parse_patches_from_python` succeeds with an
empty 32-bit table — the session is not aborted. -/
theorem C5_counterexample :
    find_dict (strip_comments c5src) "patches32" =
      Except.error "patches32 unmatched braces" ∧
    parse_patches_from_python c5src = Except.ok (([] : PatchMapL), ([] : PatchMapL)) := by
  constructor
  · decide
  · decide

/-- C5 as amended: when both 32-bit spellings of `find_dict` fail on the
stripped script — in particular with unmatched braces — the error is
swallowed by the `unwrap_or("{}")` fallback: the 32-bit table parses as
empty and the overall parse succeeds whenever the 64-bit side parses. -/
theorem C5_amended_swallowed :
    ∀ (src : String) (m64 : PatchMapL) (e1 e2 : String),
      find_dict (strip_comments src) "patches32" = Except.error e1 →
      find_dict (strip_comments src) "patches_32" = Except.error e2 →
      parse_dict (dict_source (strip_comments src) "patches64" "patches_64") =
        Except.ok m64 →
      parse_patches_from_python src = Except.ok (([] : PatchMapL), m64) := by
  intro src m64 e1 e2 h1 h2 h3
  have hds : dict_source (strip_comments src) "patches32" "patches_32" = "\x7b\x7d" := by
    simp only [dict_source, h1, h2]
  have h32 : parse_dict "\x7b\x7d" = Except.ok ([] : PatchMapL) := by decide
  simp only [parse_patches_from_python, hds, h32, h3]

/-- C5 amended, witnessed at the concrete unbalanced script. -/
theorem C5_amended_witness :
    parse_patches_from_python c5src = Except.ok (([] : PatchMapL), ([] : PatchMapL)) :=
  C5_amended_swallowed c5src [] "patches32 unmatched braces" "patches_32 not found"
    (by decide) (by decide) (by decide)

/-- C8: on the one-byte buffer `[0x00]` the well-formed mask `??AA`
(beginning with the wildcard token) drives the retry loop past the end of
the buffer and the search aborts with the out-of-bounds slice panic
(`FindRes.crash`) instead of returning not-found. -/
theorem C8_empty_anchor_crash :
    findmask [0x00] "??AA" 0 = FindRes.crash ∧
    hexDecode "AA" = some [0xAA] ∧
    findSubIdx "??AA".data wildSep = some 0 := by
  refine ⟨by decide, by decide, by decide⟩

/-- C9: in a session whose only key `bin/client.dll` is resolved through
the one-level subdirectory fallback, the patched file is written to the
staging area and counted, but `patched_files` stays empty, so the deploy
loop copies nothing and the report lists no `Patched:` line — the staged
file is never deployed, contrary to the claim (and to the report's own
count of one patched file). -/
theorem C9_fallback_not_deployed :
    runSession c9env c9keys = some c9state ∧
    c9state.staged = [("bin/client.dll", [0xBB])] ∧
    deployedRels c9state = [] ∧
    reportLines c9state = ["Patched 1 file(s)", "Applied patch at 0x0, len 1"] := by
  refine ⟨by decide, by decide, by decide, by decide⟩

/-- C6: for a winning alternative whose effective replacement hex decodes
to `repl` at write offset `off`: if `off + |repl| ≤ |out|` exactly that
byte range is overwritten with `repl` (prefix, middle and suffix
characterised) and the informational offset/length diagnostic is appended;
otherwise the out-of-range diagnostic is appended and the buffer is
returned unmodified. -/
theorem C6_write_or_range_diagnostic :
    ∀ (out : List Nat) (ws : List String) (set : PatchSet) (base : Nat)
      (pat : PatternSpec) (hexs : String) (repl : List Nat),
      (match pat.override_hex with
       | some h => some h
       | none => set.default_replacement) = some hexs →
      hexDecode hexs = some repl →
      ((write_offset base pat.offset + repl.length ≤ out.length →
          apply_chosen out ws set base pat =
            (writeAt out (write_offset base pat.offset) repl,
             ws ++ [appliedMsg (write_offset base pat.offset) repl.length]) ∧
          (writeAt out (write_offset base pat.offset) repl).length = out.length ∧
          (writeAt out (write_offset base pat.offset) repl).take (write_offset base pat.offset) =
            out.take (write_offset base pat.offset) ∧
          ((writeAt out (write_offset base pat.offset) repl).drop (write_offset base pat.offset)).take repl.length = repl ∧
          (writeAt out (write_offset base pat.offset) repl).drop (write_offset base pat.offset + repl.length) =
            out.drop (write_offset base pat.offset + repl.length)) ∧
       (out.length < write_offset base pat.offset + repl.length →
          apply_chosen out ws set base pat = (out, ws ++ [outOfRangeMsg pat.hex_mask]))) := by
  intro out ws set base pat hexs repl hrep hdec
  constructor
  · intro hle
    have happ : apply_chosen out ws set base pat =
        (writeAt out (write_offset base pat.offset) repl,
         ws ++ [appliedMsg (write_offset base pat.offset) repl.length]) := by
      simp only [apply_chosen, hrep, hdec]
      rw [if_pos hle]
    exact ⟨happ, writeAt_length _ _ _ hle, writeAt_take _ _ _ hle,
      writeAt_middle _ _ _ hle, writeAt_drop _ _ _ hle⟩
  · intro hgt
    simp only [apply_chosen, hrep, hdec]
    rw [if_neg (by omega)]

/-- C6 witness: an in-range write on `[00, 01]` and an out-of-range write
on the empty buffer, with their exact diagnostics. -/
theorem C6_witness :
    apply_chosen [0x00, 0x01] [] { patterns := [], default_replacement := some "FF" }
        0 { hex_mask := "00", offset := 0, override_hex := none } =
      ([0xFF, 0x01], ["Applied patch at 0x0, len 1"]) ∧
    apply_chosen [] [] { patterns := [], default_replacement := some "FF" }
        0 { hex_mask := "00", offset := 0, override_hex := none } =
      ([], ["Write out of range for pattern 00"]) :=
  ⟨((C6_write_or_range_diagnostic [0x00, 0x01] []
      { patterns := [], default_replacement := some "FF" } 0
      { hex_mask := "00", offset := 0, override_hex := none } "FF" [0xFF]
      rfl (by decide)).1 (by decide)).1,
   (C6_write_or_range_diagnostic [] []
      { patterns := [], default_replacement := some "FF" } 0
      { hex_mask := "00", offset := 0, override_hex := none } "FF" [0xFF]
      rfl (by decide)).2 (by decide)⟩

/-- C7: a winning alternative with neither an override nor a default
replacement appends no diagnostic and leaves the output buffer unchanged:
the whole PatchSet resolution is a silent no-op. -/
theorem C7_missing_replacement_silent :
    ∀ (orig out : List Nat) (ws : List String) (set : PatchSet) (base : Nat)
      (pat : PatternSpec),
      choose_alt orig set.patterns = some (some (base, pat)) →
      pat.override_hex = none → set.default_replacement = none →
      apply_patchsets_to_file orig out [set] ws = some (out, ws) := by
  intro orig out ws set base pat hc hov hdef
  simp only [apply_patchsets_to_file, apply_one_set, hc, apply_chosen, hov, hdef]

/-- C7 witness: a uniquely matching alternative with no replacement at all
yields the untouched buffer and an empty warning list. -/
theorem C7_witness :
    apply_patchsets_to_file [0xAA] [0xAA]
      [{ patterns := [{ hex_mask := "AA", offset := 0, override_hex := none }],
         default_replacement := none }] [] = some ([0xAA], []) :=
  C7_missing_replacement_silent [0xAA] [0xAA] []
    { patterns := [{ hex_mask := "AA", offset := 0, override_hex := none }],
      default_replacement := none }
    0 { hex_mask := "AA", offset := 0, override_hex := none } (by decide) rfl rfl

/-- C10: a tuple whose second field does not parse as a base-10 signed
integer is still accepted — `unwrap_or(0)` silently defaults its offset to
0 — and with offset 0 the patch write lands at the raw match position. -/
theorem C10_invalid_offset_defaults_zero :
    ∀ (src : String),
      2 ≤ (split_top_level (innerOf src) ',').length →
      parseIsize (trimStr ((split_top_level (innerOf src) ',').getD 1 "")).data = none →
      ∃ ps, parse_tuple_pattern src = Except.ok ps ∧ ps.offset = 0 ∧
        ∀ base, write_offset base ps.offset = base := by
  intro src h2 hpi
  refine ⟨{ hex_mask := unquote (trimStr ((split_top_level (innerOf src) ',').getD 0 "")),
            offset := 0,
            override_hex := if 3 ≤ (split_top_level (innerOf src) ',').length then
              some (unquote (trimStr ((split_top_level (innerOf src) ',').getD 2 ""))) else none },
          ?_, rfl, ?_⟩
  · simp only [parse_tuple_pattern]
    rw [if_neg (by omega), hpi]
    rfl
  · intro base
    simp [write_offset]

/-- C10 witness: the tuple `('AA', 'xyz')` parses with offset 0. -/
theorem C10_witness :
    ∃ ps, parse_tuple_pattern "(\x27AA\x27, \x27xyz\x27)" = Except.ok ps ∧
      ps.offset = 0 ∧ ∀ base, write_offset base ps.offset = base :=
  C10_invalid_offset_defaults_zero "(\x27AA\x27, \x27xyz\x27)" (by decide) (by decide)

/-- C4: the masked matcher verifies segments by walking forward from the
candidate start, advancing per segment by its byte length plus exactly one
wildcard byte.  Concretely `AA??CC` matches `AA 00 CC AA FF CC` at 0 from
start 0 and at 3 from start 1; generally, every found position has a fully
verified segment walk, and a verified walk places each decodable non-empty
segment `k` at `walkPos` of the preceding segments. -/
theorem C4_matcher_segment_walk :
    (findmask c4buf "AA??CC" 0 = FindRes.found 0 ∧
     findmask c4buf "AA??CC" 1 = FindRes.found 3) ∧
    (∀ (data : List Nat) (mask : String) (start p : Nat),
       findSubIdx mask.data wildSep ≠ none →
       findmask data mask start = FindRes.found p →
       verifyParts data (maskParts mask) p = some true) ∧
    (∀ (data : List Nat) (parts : List (List Char)) (cp k : Nat),
       k < parts.length →
       ∀ (b : List Nat), verifyParts data parts cp = some true →
         hexDecodeL (parts.getD k []) = some b → b ≠ [] →
         segMatch data (walkPos cp parts k) b) := by
  refine ⟨⟨by decide, by decide⟩, ?_, ?_⟩
  · intro data mask start p hwild h
    rw [findmask] at h
    cases hw : findSubIdx mask.data wildSep with
    | none => exact absurd hw hwild
    | some w =>
      rw [hw] at h
      exact findmaskLoop_found_verify data (maskParts mask) _ start p h
  · intro data parts cp k hk b hv hdec hne
    exact verifyParts_sound parts data cp hv k hk b hdec hne

/-- C4 witness: the general walk statements instantiated on the concrete
buffer and mask of the claim. -/
theorem C4_witness :
    segMatch c4buf (walkPos 0 (maskParts "AA??CC") 1) [0xCC] ∧
    verifyParts c4buf (maskParts "AA??CC") 0 = some true :=
  ⟨C4_matcher_segment_walk.2.2 c4buf (maskParts "AA??CC") 0 1 (by decide) [0xCC]
     (by decide) (by decide) (by decide),
   C4_matcher_segment_walk.2.1 c4buf "AA??CC" 0 0 (by decide) (by decide)⟩

/-- C1: the resolver scans a PatchSet's alternatives in declared order and
selects exactly the first alternative whose search from offset 0 finds a
position and whose search from one past it finds nothing (a unique match),
every earlier alternative having definitively failed the test; concretely,
with alternative 1 (`AA`) occurring twice and alternative 2 (`BB`) exactly
once in `c1buf`, alternative 2 is selected and applied while alternative 1
is not. -/
theorem C1_first_unique_alternative :
    (∀ (orig : List Nat) (pats : List PatternSpec) (pos : Nat) (pat : PatternSpec),
       choose_alt orig pats = some (some (pos, pat)) ↔
         ∃ l1 l2, pats = l1 ++ pat :: l2 ∧ (∀ q ∈ l1, altFails orig q) ∧
           findmask orig pat.hex_mask 0 = FindRes.found pos ∧
           findmask orig pat.hex_mask (pos + 1) = FindRes.notFound) ∧
    choose_alt c1buf c1set.patterns = some (some (2, c1pat2)) ∧
    apply_patchsets_to_file c1buf c1buf [c1set] [] =
      some ([0xAA, 0xAA, 0x22], ["Applied patch at 0x2, len 1"]) := by
  refine ⟨?_, by decide, by decide⟩
  intro orig pats
  induction pats with
  | nil =>
    intro pos pat
    constructor
    · intro h
      simp [choose_alt] at h
    · rintro ⟨l1, l2, heq, -, -, -⟩
      exact absurd heq (by simp)
  | cons pat0 rest ih =>
    intro pos pat
    cases h0 : findmask orig pat0.hex_mask 0 with
    | crash =>
      simp only [choose_alt, h0]
      constructor
      · intro h
        exact absurd h (by simp)
      · rintro ⟨l1, l2, heq, hfail, hf, hn⟩
        cases l1 with
        | nil =>
          simp only [List.nil_append, List.cons.injEq] at heq
          obtain ⟨hpp, -⟩ := heq
          rw [← hpp] at hf
          rw [h0] at hf
          exact absurd hf (by simp)
        | cons a l1' =>
          simp only [List.cons_append, List.cons.injEq] at heq
          obtain ⟨ha, -⟩ := heq
          have hfa : altFails orig pat0 := by
            rw [ha]; exact hfail a (List.mem_cons_self a l1')
          rcases hfa with hnf | ⟨p, q, hp, hq⟩
          · rw [h0] at hnf
            exact absurd hnf (by simp)
          · rw [h0] at hp
            exact absurd hp (by simp)
    | notFound =>
      simp only [choose_alt, h0]
      rw [ih pos pat]
      constructor
      · rintro ⟨l1, l2, heq, hfail, hf, hn⟩
        refine ⟨pat0 :: l1, l2, by simp [heq], ?_, hf, hn⟩
        intro q hq
        rcases List.mem_cons.mp hq with hq0 | hq1
        · subst hq0
          exact Or.inl h0
        · exact hfail q hq1
      · rintro ⟨l1, l2, heq, hfail, hf, hn⟩
        cases l1 with
        | nil =>
          simp only [List.nil_append, List.cons.injEq] at heq
          obtain ⟨hpp, -⟩ := heq
          rw [← hpp] at hf
          rw [h0] at hf
          exact absurd hf (by simp)
        | cons a l1' =>
          simp only [List.cons_append, List.cons.injEq] at heq
          obtain ⟨ha, hrest⟩ := heq
          refine ⟨l1', l2, hrest, ?_, hf, hn⟩
          intro q hq
          exact hfail q (List.mem_cons_of_mem a hq)
    | found p0 =>
      cases h1 : findmask orig pat0.hex_mask (p0 + 1) with
      | crash =>
        simp only [choose_alt, h0, h1]
        constructor
        · intro h
          exact absurd h (by simp)
        · rintro ⟨l1, l2, heq, hfail, hf, hn⟩
          cases l1 with
          | nil =>
            simp only [List.nil_append, List.cons.injEq] at heq
            obtain ⟨hpp, -⟩ := heq
            rw [← hpp] at hf hn
            rw [h0] at hf
            injection hf with hps
            rw [← hps] at hn
            rw [h1] at hn
            exact absurd hn (by simp)
          | cons a l1' =>
            simp only [List.cons_append, List.cons.injEq] at heq
            obtain ⟨ha, -⟩ := heq
            have hfa : altFails orig pat0 := by
              rw [ha]; exact hfail a (List.mem_cons_self a l1')
            rcases hfa with hnf | ⟨p, q, hp, hq⟩
            · rw [h0] at hnf
              exact absurd hnf (by simp)
            · rw [h0] at hp
              injection hp with hpe
              rw [← hpe] at hq
              rw [h1] at hq
              exact absurd hq (by simp)
      | found q0 =>
        simp only [choose_alt, h0, h1]
        rw [ih pos pat]
        constructor
        · rintro ⟨l1, l2, heq, hfail, hf, hn⟩
          refine ⟨pat0 :: l1, l2, by simp [heq], ?_, hf, hn⟩
          intro q hq
          rcases List.mem_cons.mp hq with hq0 | hq1
          · subst hq0
            exact Or.inr ⟨p0, q0, h0, h1⟩
          · exact hfail q hq1
        · rintro ⟨l1, l2, heq, hfail, hf, hn⟩
          cases l1 with
          | nil =>
            simp only [List.nil_append, List.cons.injEq] at heq
            obtain ⟨hpp, -⟩ := heq
            rw [← hpp] at hf hn
            rw [h0] at hf
            injection hf with hps
            rw [← hps] at hn
            rw [h1] at hn
            exact absurd hn (by simp)
          | cons a l1' =>
            simp only [List.cons_append, List.cons.injEq] at heq
            obtain ⟨ha, hrest⟩ := heq
            refine ⟨l1', l2, hrest, ?_, hf, hn⟩
            intro q hq
            exact hfail q (List.mem_cons_of_mem a hq)
      | notFound =>
        simp only [choose_alt, h0, h1]
        constructor
        · intro h
          simp only [Option.some.injEq, Prod.mk.injEq] at h
          obtain ⟨hp, hpat⟩ := h
          subst hp
          subst hpat
          exact ⟨[], rest, rfl, by simp, h0, h1⟩
        · rintro ⟨l1, l2, heq, hfail, hf, hn⟩
          cases l1 with
          | nil =>
            simp only [List.nil_append, List.cons.injEq] at heq
            obtain ⟨hpp, -⟩ := heq
            rw [← hpp] at hf
            rw [h0] at hf
            injection hf with hps
            simp [hps, hpp]
          | cons a l1' =>
            simp only [List.cons_append, List.cons.injEq] at heq
            obtain ⟨ha, -⟩ := heq
            have hfa : altFails orig pat0 := by
              rw [ha]; exact hfail a (List.mem_cons_self a l1')
            rcases hfa with hnf | ⟨p, q, hp, hq⟩
            · rw [h0] at hnf
              exact absurd hnf (by simp)
            · rw [h0] at hp
              injection hp with hpe
              rw [← hpe] at hq
              rw [h1] at hq
              exact absurd hq (by simp)

/-- C1 witness: the characterisation applied to a single-alternative set
matching uniquely at position 1. -/
theorem C1_witness :
    choose_alt [0xAA, 0xBB] [{ hex_mask := "BB", offset := 0, override_hex := none }] =
      some (some (1, { hex_mask := "BB", offset := 0, override_hex := none })) :=
  (C1_first_unique_alternative.1 [0xAA, 0xBB]
    [{ hex_mask := "BB", offset := 0, override_hex := none }] 1
    { hex_mask := "BB", offset := 0, override_hex := none }).mpr
    ⟨[], [], rfl, by simp, by decide, by decide⟩
